import Mathlib

/-!
Verification of the structured-extraction-and-persistence pipeline of
`src/main.py` (zero1max/simple-ai-agent-1).

The script's pipeline section is embedded shallowly:

* the fence-stripping block (main.py lines 119-130) becomes `unwrap` over
  `List Char`, with `strip` modelling Python `str.strip()` (ASCII whitespace)
  and `stripTicks` modelling `str.strip("\x60")`;
* the pydantic models `LeadResponse` / `LeadResponseList` and the
  `parser.parse` call become `parseLeadList` over a JSON value type `JValue`;
  pydantic collects one error per offending field across all elements, which
  `collectLeads` mirrors by concatenating per-element error lists;
* the three sink blocks (lines 143-209) become `runPipeline`.  Each sink's
  try/except is modelled by a Boolean oracle saying whether the final durable
  write succeeds; each `datetime.now()` call is one consultation of a `clock`
  indexed by call order (CSV rows first, then the spreadsheet rows, exactly as
  the two loops run);
* the Excel merge block (lines 190-205) becomes `mergedFor`: when the prior
  file exists and loads, `pd.concat` + `drop_duplicates(subset=["email"],
  keep="last")` is `merge` = `keepLast (existing ++ incoming)`; when the file
  is absent, or reading it raises (the inner `except` at lines 199-201),
  `df_out = df_new` is written with no deduplication and nothing is logged.
  Rows written by this script always carry the seven standard columns, so the
  `"email" in df_out.columns` test is true and dedup is keyed by `email`.
-/

namespace LeadAgent

/-- The backtick character, written via its code point. -/
def tick : Char := Char.ofNat 96

/-- Python `str.strip()` whitespace (the ASCII part: space, tab, LF, CR, VT, FF). -/
def isPyWS (c : Char) : Bool :=
  c == ' ' || c == '\t' || c == '\n' || c == '\r' || c == '\x0b' || c == '\x0c'

/-- Drop characters satisfying `p` from the end of the text. -/
def rstrip (p : Char → Bool) (s : List Char) : List Char :=
  (s.reverse.dropWhile p).reverse

/-- Python `str.strip(chars)`: drop characters satisfying `p` from both ends. -/
def pyStrip (p : Char → Bool) (s : List Char) : List Char :=
  rstrip p (s.dropWhile p)

/-- Python `str.strip()` on the text. -/
def strip (s : List Char) : List Char := pyStrip isPyWS s

/-- Python `str.strip("\x60")`: drop backticks from both ends. -/
def stripTicks (s : List Char) : List Char := pyStrip (fun c => c == tick) s

/-- The three-backtick fence marker. -/
def fenceMarker : List Char := [tick, tick, tick]

/-- The language tag checked for (lowercased). -/
def jsonTag : List Char := ['j', 's', 'o', 'n']

/-- The fence-stripping block of main.py lines 119-130:
`output_text.strip().startswith("\x60\x60\x60")` guards; then
`cleaned = output_text.strip().strip("\x60")`, `cleaned = cleaned.strip()`,
and if `cleaned.lower().startswith("json")` also `cleaned = cleaned[4:].strip()`.
The assignment `output_text = cleaned` sits inside the `if` branch, so when
the trimmed text does not begin with the fence marker the raw text flows on
unchanged — untrimmed; trimming happens only in the fence test itself. -/
def unwrap (s : List Char) : List Char :=
  let t := strip s
  if t.take 3 = fenceMarker then
    let cleaned := strip (stripTicks t)
    if (cleaned.take 4).map Char.toLower = jsonTag then strip (cleaned.drop 4)
    else cleaned
  else s

/-! ### JSON values and the pydantic schema -/

/-- A parsed JSON document, as produced by `json.loads` inside
`PydanticOutputParser.parse`. -/
inductive JValue where
  | null : JValue
  | bool (b : Bool) : JValue
  | num (n : Int) : JValue
  | str (s : String) : JValue
  | arr (xs : List JValue) : JValue
  | obj (fields : List (String × JValue)) : JValue

/-- The pydantic model `LeadResponse` of main.py lines 56-62. -/
structure LeadResponse where
  company : String
  contact_info : String
  email : String
  summary : String
  outreach_message : String
  tools_used : List String
deriving DecidableEq, Repr

/-- The pydantic model `LeadResponseList` of main.py lines 64-65. -/
structure LeadResponseList where
  leads : List LeadResponse
deriving DecidableEq, Repr

/-- One pydantic validation error, identified by kind and offending field. -/
inductive ValError where
  | missingField (name : String) : ValError
  | wrongType (name : String) : ValError
  | notObject : ValError
deriving DecidableEq, Repr

/-- Field lookup in a JSON object: the string value at `name`, if present and
string-typed (pydantic v2 does not coerce numbers to `str`). -/
def getStr (name : String) (fs : List (String × JValue)) : Option String :=
  match fs.lookup name with
  | some (.str s) => some s
  | _ => none

/-- All-strings reading of a JSON array, for the `list[str]` field. -/
def strList : List JValue → Option (List String)
  | [] => some []
  | .str s :: rest => (strList rest).map (fun l => s :: l)
  | _ => none

/-- The `tools_used : list[str]` field, if present and well-typed. -/
def getTools (fs : List (String × JValue)) : Option (List String) :=
  match fs.lookup "tools_used" with
  | some (.arr xs) => strList xs
  | _ => none

/-- Pydantic's per-field check for a `str` field. -/
def checkStr (name : String) (fs : List (String × JValue)) : List ValError :=
  match fs.lookup name with
  | none => [.missingField name]
  | some (.str _) => []
  | some _ => [.wrongType name]

/-- Pydantic's per-field check for the `list[str]` field. -/
def checkTools (fs : List (String × JValue)) : List ValError :=
  match fs.lookup "tools_used" with
  | none => [.missingField "tools_used"]
  | some (.arr xs) => if (strList xs).isSome then [] else [.wrongType "tools_used"]
  | some _ => [.wrongType "tools_used"]

/-- All field errors of one lead object, in field declaration order. -/
def fieldErrs (fs : List (String × JValue)) : List ValError :=
  checkStr "company" fs ++ checkStr "contact_info" fs ++ checkStr "email" fs ++
  checkStr "summary" fs ++ checkStr "outreach_message" fs ++ checkTools fs

/-- Extraction of one `LeadResponse` from a JSON value: succeeds exactly when
all six required fields are present with the right types. -/
def leadOfJ (v : JValue) : Option LeadResponse :=
  match v with
  | .obj fs =>
    match getStr "company" fs, getStr "contact_info" fs, getStr "email" fs,
          getStr "summary" fs, getStr "outreach_message" fs, getTools fs with
    | some c, some ci, some em, some su, some om, some tu =>
      some ⟨c, ci, em, su, om, tu⟩
    | _, _, _, _, _, _ => none
  | _ => none

/-- Elementwise extraction of a whole lead list: succeeds exactly when every
element carries the six required fields with the right types.  Used to state
what a fully valid payload is. -/
def extractLeads : List JValue → Option (List LeadResponse)
  | [] => some []
  | v :: vs =>
    match leadOfJ v, extractLeads vs with
    | some l, some ls => some (l :: ls)
    | _, _ => none

/-- Validation of one element: the value on success, its collected field
errors on failure (pydantic reports every offending field). -/
def validateLead (v : JValue) : Except (List ValError) LeadResponse :=
  match leadOfJ v with
  | some l => .ok l
  | none =>
    match v with
    | .obj fs => .error (fieldErrs fs)
    | _ => .error [.notObject]

/-- Validation of the `leads` array: order-preserving on success, and the
concatenation of every element's errors on failure. -/
def collectLeads : List JValue → Except (List ValError) (List LeadResponse)
  | [] => .ok []
  | v :: vs =>
    match validateLead v, collectLeads vs with
    | .ok l, .ok ls => .ok (l :: ls)
    | .ok _, .error es => .error es
    | .error es, .ok _ => .error es
    | .error es, .error es2 => .error (es ++ es2)

/-- The `parser.parse` call of main.py line 132, from the JSON value onward:
pydantic validation of `LeadResponseList` against the payload. -/
def parseLeadList (v : JValue) : Except (List ValError) LeadResponseList :=
  match v with
  | .obj fs =>
    match fs.lookup "leads" with
    | some (.arr vs) =>
      match collectLeads vs with
      | .ok leads => .ok ⟨leads⟩
      | .error es => .error es
    | some _ => .error [.wrongType "leads"]
    | none => .error [.missingField "leads"]
  | _ => .error [.notObject]

/-- The six required `LeadResponse` field names, in declaration order. -/
def requiredLeadFields : List String :=
  ["company", "contact_info", "email", "summary", "outreach_message", "tools_used"]

/-- The error list of a failed validation (empty on success). -/
def errsOf : Except (List ValError) LeadResponseList → List ValError
  | .error es => es
  | .ok _ => []

/-! ### Sink contents and the merge engine -/

/-- One spreadsheet row: the dict built at main.py lines 179-187 (a
`LeadRecord` plus `scraped_at`). -/
structure XlsxRow where
  company : String
  contact_info : String
  email : String
  summary : String
  outreach_message : String
  tools_used : String
  scraped_at : String
deriving DecidableEq, Repr

/-- The `tools_used` cell: `";".join(lead.tools_used) if lead.tools_used else ""`. -/
def toolsCell (lead : LeadResponse) : String :=
  if lead.tools_used.isEmpty then "" else String.intercalate ";" lead.tools_used

/-- The fixed CSV header row of main.py line 158. -/
def csvHeader : List String :=
  ["company", "contact_info", "email", "summary", "outreach_message", "tools_used", "scraped_at"]

/-- One CSV data row (main.py lines 160-168); `clock i` is the value of the
i-th `datetime.now()` call of the run. -/
def csvRow (clock : Nat → String) (i : Nat) (lead : LeadResponse) : List String :=
  [lead.company, lead.contact_info, lead.email, lead.summary, lead.outreach_message,
   toolsCell lead, clock i]

/-- The full CSV sink content: header then one row per lead, in order. -/
def csvContent (leads : List LeadResponse) (clock : Nat → String) : List (List String) :=
  csvHeader :: leads.enum.map (fun p => csvRow clock p.1 p.2)

/-- One spreadsheet row for the `base + i`-th `datetime.now()` call: the rows
loop runs after the CSV loop, so its calls start at `base` = number of leads. -/
def xlsxRow (clock : Nat → String) (base : Nat) (i : Nat) (lead : LeadResponse) : XlsxRow :=
  ⟨lead.company, lead.contact_info, lead.email, lead.summary, lead.outreach_message,
   toolsCell lead, clock (base + i)⟩

/-- The `rows` list of main.py lines 177-187 (`df_new`). -/
def newXlsxRows (leads : List LeadResponse) (clock : Nat → String) : List XlsxRow :=
  leads.enum.map (fun p => xlsxRow clock leads.length p.1 p.2)

/-- Pandas `drop_duplicates(subset=["email"], keep="last")`: a row survives
exactly when no later row carries the same `email`; survivors keep their
original relative order. -/
def keepLast : List XlsxRow → List XlsxRow
  | [] => []
  | r :: rest =>
    if rest.any (fun r2 => r2.email == r.email) then keepLast rest
    else r :: keepLast rest

/-- The merge of main.py lines 193-198: concatenate existing then incoming
(`pd.concat`), then deduplicate by `email`, keep-last. -/
def merge (existing incoming : List XlsxRow) : List XlsxRow :=
  keepLast (existing ++ incoming)

/-! ### The pipeline driver -/

/-- State of the prior spreadsheet file before the run. -/
inductive PriorXlsx where
  | absent : PriorXlsx
  | loadFails : PriorXlsx
  | loaded (rows : List XlsxRow) : PriorXlsx
deriving DecidableEq, Repr

/-- What the Excel block writes (main.py lines 190-203): on a successful load
the merged frame; when the file is absent, or the inner try at lines 191-198
raises, exactly `df_new` with no deduplication. -/
def mergedFor : PriorXlsx → List XlsxRow → List XlsxRow
  | .absent, rows => rows
  | .loadFails, rows => rows
  | .loaded ex, rows => merge ex rows

/-- Events printed by the three sink blocks.  The inner `except` swallowing a
spreadsheet load failure (lines 199-201) prints nothing, so no event exists
for it. -/
inductive RunEvent where
  | jsonSaved : RunEvent
  | jsonFailed : RunEvent
  | csvSaved : RunEvent
  | csvFailed : RunEvent
  | excelSaved : RunEvent
  | excelFailed : RunEvent
deriving DecidableEq, Repr

/-- Terminal driver state: the script either reaches its final line or dies
on the re-raised validation error (main.py line 137). -/
inductive DriverState where
  | done : DriverState
  | failed (errs : List ValError) : DriverState
deriving DecidableEq, Repr

/-- Observable outcome of one run: terminal state, the content each sink holds
if (and only if) its write succeeded, whether each sink block was reached, and
the trace of per-sink status prints. -/
structure RunResult where
  state : DriverState
  jsonSink : Option (List LeadResponse)
  csvSink : Option (List (List String))
  xlsxSink : Option (List XlsxRow)
  jsonAttempted : Bool
  csvAttempted : Bool
  xlsxAttempted : Bool
  events : List RunEvent
deriving DecidableEq, Repr

/-- Outcome of the validated-success path: all three sink blocks run in their
own try/except, in order, regardless of each other's outcome. -/
def okResult (leads : List LeadResponse) (prior : PriorXlsx) (clock : Nat → String)
    (jsonOk csvOk xlsxOk : Bool) : RunResult :=
  ⟨.done,
   if jsonOk then some leads else none,
   if csvOk then some (csvContent leads clock) else none,
   if xlsxOk then some (mergedFor prior (newXlsxRows leads clock)) else none,
   true, true, true,
   [if jsonOk then .jsonSaved else .jsonFailed,
    if csvOk then .csvSaved else .csvFailed,
    if xlsxOk then .excelSaved else .excelFailed]⟩

/-- Outcome of a failed validation: the `raise` at main.py line 137 kills the
run before any sink code. -/
def failedResult (errs : List ValError) : RunResult :=
  ⟨.failed errs, none, none, none, false, false, false, []⟩

/-- The pipeline from the parsed JSON payload onward (main.py lines 132-209).
`prior` is the state of `output/leads.xlsx`; `clock n` is the result of the
n-th `datetime.now().isoformat(timespec="seconds")` call; the three Booleans
say whether each sink's durable write succeeds (a failure is caught by that
sink's own `except` block). -/
def runPipeline (payload : JValue) (prior : PriorXlsx) (clock : Nat → String)
    (jsonOk csvOk xlsxOk : Bool) : RunResult :=
  match parseLeadList payload with
  | .error errs => failedResult errs
  | .ok parsed => okResult parsed.leads prior clock jsonOk csvOk xlsxOk

/-! ### Concrete values used in witnesses and counterexamples -/

/-- The fully-populated example lead of the spec's end-to-end scenario. -/
def alfaLead : LeadResponse :=
  ⟨"Alfa", "+998", "a@alfa.uz", "needs website", "Salom", ["search"]⟩

/-- The same lead as a JSON object. -/
def alfaLeadJ : JValue :=
  .obj [("company", .str "Alfa"), ("contact_info", .str "+998"), ("email", .str "a@alfa.uz"),
        ("summary", .str "needs website"), ("outreach_message", .str "Salom"),
        ("tools_used", .arr [.str "search"])]

/-- A valid one-lead payload. -/
def alfaPayload : JValue := .obj [("leads", .arr [alfaLeadJ])]

/-- A minimal valid lead object with the given company and email. -/
def miniLeadJ (comp em : String) : JValue :=
  .obj [("company", .str comp), ("contact_info", .str ""), ("email", .str em),
        ("summary", .str ""), ("outreach_message", .str ""), ("tools_used", .arr [])]

/-- A valid payload whose two leads share the email `a@x`. -/
def dupPayload : JValue :=
  .obj [("leads", .arr [miniLeadJ "Old" "a@x", miniLeadJ "New" "a@x"])]

/-- A valid payload with two leads with distinct emails. -/
def twoLeadPayload : JValue :=
  .obj [("leads", .arr [miniLeadJ "Alfa" "a@x", miniLeadJ "Beta" "b@x"])]

/-- The top-level fields of a payload whose single lead lacks every field but `company`. -/
def wPayloadFs : List (String × JValue) :=
  [("leads", .arr [.obj [("company", .str "A")]])]

/-- The spec's keep-last example: the existing row for `a@x`. -/
def oldRow : XlsxRow := ⟨"Old", "", "a@x", "", "", "", "T0"⟩

/-- The spec's keep-last example: the incoming row for `a@x`. -/
def newRow : XlsxRow := ⟨"New", "", "a@x", "", "", "", "T1"⟩

/-- A row whose email is the empty string. -/
def emptyEmailRowA : XlsxRow := ⟨"A", "", "", "", "", "", "T0"⟩

/-- A second row whose email is the empty string. -/
def emptyEmailRowB : XlsxRow := ⟨"B", "", "", "", "", "", "T1"⟩

/-- A clock whose consecutive calls return distinct values (a run crossing
second boundaries). -/
def stepClock : Nat → String := fun n => ["T0", "T1", "T2", "T3"].getD n "TX"

/-- A clock always answering `"T"` (a run finishing within one second). -/
def constClock : Nat → String := fun _ => "T"

/-! ### Lemmas about end-stripping -/

theorem rstrip_append (p : Char → Bool) (xs ys : List Char) :
    rstrip p (xs ++ ys) = if rstrip p ys = [] then rstrip p xs else xs ++ rstrip p ys := by
  unfold rstrip
  rw [List.reverse_append, List.dropWhile_append]
  by_cases h : List.dropWhile p ys.reverse = []
  · simp [h]
  · simp [h, List.reverse_append, List.reverse_eq_nil_iff]

theorem rstrip_cons_of_neg (p : Char → Bool) (b : Char) (t : List Char) (h : p b = false) :
    rstrip p (b :: t) = b :: rstrip p t := by
  have hb : rstrip p [b] = [b] := by unfold rstrip; simp [List.dropWhile_cons, h]
  have hsplit : b :: t = [b] ++ t := rfl
  rw [hsplit, rstrip_append]
  by_cases ht : rstrip p t = []
  · rw [if_pos ht, ht, hb]
  · rw [if_neg ht]; rfl

theorem dropWhile_eq_self_of_head (p : Char → Bool) (l : List Char)
    (h : ∀ c, l.head? = some c → p c = false) : l.dropWhile p = l := by
  cases l with
  | nil => rfl
  | cons a t => rw [List.dropWhile_cons]; simp [h a rfl]

theorem rstrip_eq_self_of_getLast (p : Char → Bool) (z : List Char)
    (h : ∀ c, z.getLast? = some c → p c = false) : rstrip p z = z := by
  cases hz : z.getLast? with
  | none =>
    rw [List.getLast?_eq_none_iff] at hz
    subst hz; rfl
  | some c =>
    have hc := h c hz
    have hne : z ≠ [] := by
      intro h0; rw [h0] at hz; exact Option.noConfusion hz
    have hgl : z.getLast hne = c := by
      have h1 := List.getLast?_eq_getLast z hne
      rw [hz] at h1
      exact (Option.some.injEq _ _ ▸ h1).symm
    have h1 : rstrip p [z.getLast hne] = [z.getLast hne] := by
      unfold rstrip; simp [List.dropWhile_cons, hgl, hc]
    conv_lhs => rw [← List.dropLast_append_getLast hne]
    rw [rstrip_append, h1, if_neg (by simp), List.dropLast_append_getLast hne]

theorem head_dropWhile_false (p : Char → Bool) (l : List Char) (b : Char) (t : List Char)
    (h : l.dropWhile p = b :: t) : p b = false := by
  have h1 := List.head?_dropWhile_not p l
  rw [h] at h1
  exact h1

theorem rstrip_eq_nil_of_all (p : Char → Bool) (l : List Char) (h : ∀ x ∈ l, p x) :
    rstrip p l = [] := by
  unfold rstrip
  rw [List.dropWhile_eq_nil_iff.mpr (fun x hx => h x (List.mem_reverse.mp hx))]
  rfl

theorem dropWhile_rstrip_comm (p : Char → Bool) (s : List Char) :
    (rstrip p s).dropWhile p = rstrip p (s.dropWhile p) := by
  cases hd : s.dropWhile p with
  | nil =>
    have hall : ∀ x ∈ s, p x := List.dropWhile_eq_nil_iff.mp hd
    rw [rstrip_eq_nil_of_all p s hall]
    rfl
  | cons b t =>
    have hpb : p b = false := head_dropWhile_false p s b t hd
    have hsplit : s = s.takeWhile p ++ (b :: t) := by
      conv_lhs => rw [← List.takeWhile_append_dropWhile p s, hd]
    have hallw : ∀ x ∈ s.takeWhile p, p x := fun x hx => List.mem_takeWhile_imp hx
    have hne : rstrip p (b :: t) ≠ [] := by
      rw [rstrip_cons_of_neg p b t hpb]; simp
    conv_lhs => rw [hsplit]
    rw [rstrip_append, if_neg hne, List.dropWhile_append]
    have hempty : (List.dropWhile p (s.takeWhile p)).isEmpty = true := by
      rw [List.isEmpty_iff, List.dropWhile_eq_nil_iff]; exact hallw
    rw [if_pos hempty, rstrip_cons_of_neg p b t hpb, List.dropWhile_cons]
    simp [hpb]

theorem rstrip_idem (p : Char → Bool) (s : List Char) :
    rstrip p (rstrip p s) = rstrip p s := by
  unfold rstrip
  rw [List.reverse_reverse, List.dropWhile_idempotent]

theorem pyStrip_idem (p : Char → Bool) (s : List Char) :
    pyStrip p (pyStrip p s) = pyStrip p s := by
  unfold pyStrip
  rw [dropWhile_rstrip_comm, List.dropWhile_idempotent, rstrip_idem]

theorem pyStrip_rstrip (p : Char → Bool) (s : List Char) :
    pyStrip p (rstrip p s) = pyStrip p s := by
  unfold pyStrip
  rw [dropWhile_rstrip_comm, rstrip_idem]

theorem strip_of_ends (s : List Char)
    (h1 : ∀ c, s.head? = some c → isPyWS c = false)
    (h2 : ∀ c, s.getLast? = some c → isPyWS c = false) : strip s = s := by
  unfold strip pyStrip
  rw [dropWhile_eq_self_of_head _ _ h1]
  exact rstrip_eq_self_of_getLast _ _ h2

/-! ### Lemmas about the merge engine -/

theorem mem_of_mem_keepLast {a : XlsxRow} {rows : List XlsxRow}
    (h : a ∈ keepLast rows) : a ∈ rows := by
  induction rows with
  | nil => exact (List.not_mem_nil a h).elim
  | cons r rest ih =>
    by_cases hc : rest.any (fun r2 => r2.email == r.email) = true
    · rw [keepLast, if_pos hc] at h
      exact List.mem_cons_of_mem _ (ih h)
    · rw [keepLast, if_neg hc] at h
      rcases List.mem_cons.mp h with h1 | h2
      · exact h1 ▸ List.mem_cons_self _ _
      · exact List.mem_cons_of_mem _ (ih h2)

theorem option_toList_getLast {α : Type} (o : Option α) : o.toList.getLast? = o := by
  cases o <;> rfl

theorem keepLast_filter (k : String) (rows : List XlsxRow) :
    (keepLast rows).filter (fun r => r.email == k) =
      ((rows.filter (fun r => r.email == k)).getLast?).toList := by
  induction rows with
  | nil => rfl
  | cons r rest ih =>
    by_cases hc : rest.any (fun r2 => r2.email == r.email) = true
    · rw [keepLast, if_pos hc]
      by_cases hq : (r.email == k) = true
      · have hk : r.email = k := eq_of_beq hq
        obtain ⟨x, hx, hxe⟩ := List.any_eq_true.mp hc
        have hxk : (x.email == k) = true := hk ▸ hxe
        have hne : rest.filter (fun x => x.email == k) ≠ [] := by
          intro h0
          exact List.filter_eq_nil_iff.mp h0 x hx hxk
        rw [ih, List.filter_cons, if_pos hq]
        cases hf : rest.filter (fun x => x.email == k) with
        | nil => exact absurd hf hne
        | cons b t => rw [List.getLast?_cons_cons]
      · have hq' : (r.email == k) = false := by
          cases h : (r.email == k)
          · rfl
          · exact absurd h hq
        rw [ih, List.filter_cons, hq']
        simp
    · rw [keepLast, if_neg hc]
      by_cases hq : (r.email == k) = true
      · have hk : r.email = k := eq_of_beq hq
        have hnone : ∀ x ∈ rest, (x.email == k) = false := by
          intro x hx
          cases hxe : (x.email == r.email) with
          | false => rw [← hk]; exact hxe
          | true => exact absurd (List.any_eq_true.mpr ⟨x, hx, hxe⟩) hc
        have hfr : rest.filter (fun x => x.email == k) = [] :=
          List.filter_eq_nil_iff.mpr (fun a ha => by simp [hnone a ha])
        have hfk : (keepLast rest).filter (fun x => x.email == k) = [] :=
          List.filter_eq_nil_iff.mpr
            (fun a ha => by simp [hnone a (mem_of_mem_keepLast ha)])
        rw [List.filter_cons, if_pos hq, hfk, List.filter_cons, if_pos hq, hfr]
        rfl
      · have hq' : (r.email == k) = false := by
          cases h : (r.email == k)
          · rfl
          · exact absurd h hq
        rw [List.filter_cons, hq', ih, List.filter_cons, hq']
        simp

theorem keepLast_append_of_dup (xs ys : List XlsxRow)
    (h : ∀ x ∈ xs, ys.any (fun y => y.email == x.email) = true) :
    keepLast (xs ++ ys) = keepLast ys := by
  induction xs with
  | nil => rfl
  | cons x xs ih =>
    have hx := h x (List.mem_cons_self x xs)
    have hany : (xs ++ ys).any (fun y => y.email == x.email) = true := by
      rw [List.any_append, hx]
      simp
    rw [List.cons_append, keepLast, if_pos hany]
    exact ih (fun a ha => h a (List.mem_cons_of_mem _ ha))

/-! ### Lemmas about the schema validator -/

theorem leadOfJ_some_fields {fs : List (String × JValue)} {l : LeadResponse}
    (h : leadOfJ (.obj fs) = some l) :
    getStr "company" fs = some l.company ∧ getStr "contact_info" fs = some l.contact_info ∧
    getStr "email" fs = some l.email ∧ getStr "summary" fs = some l.summary ∧
    getStr "outreach_message" fs = some l.outreach_message ∧
    getTools fs = some l.tools_used := by
  simp only [leadOfJ] at h
  split at h
  · rename_i c ci em su om tu h1 h2 h3 h4 h5 h6
    injection h with h0
    subst h0
    exact ⟨h1, h2, h3, h4, h5, h6⟩
  · exact Option.noConfusion h

theorem getStr_none_of_lookup_none {f : String} {fs : List (String × JValue)}
    (h : fs.lookup f = none) : getStr f fs = none := by
  unfold getStr; rw [h]

theorem getTools_none_of_lookup_none {fs : List (String × JValue)}
    (h : fs.lookup "tools_used" = none) : getTools fs = none := by
  unfold getTools; rw [h]

theorem required_six {f : String} (hf : f ∈ requiredLeadFields) :
    f = "company" ∨ f = "contact_info" ∨ f = "email" ∨ f = "summary" ∨
    f = "outreach_message" ∨ f = "tools_used" := by
  simpa [requiredLeadFields] using hf

theorem leadOfJ_none_of_missing {fs : List (String × JValue)} {f : String}
    (hf : f ∈ requiredLeadFields) (hm : fs.lookup f = none) :
    leadOfJ (.obj fs) = none := by
  cases hl : leadOfJ (.obj fs) with
  | none => rfl
  | some l =>
    exfalso
    obtain ⟨h1, h2, h3, h4, h5, h6⟩ := leadOfJ_some_fields hl
    rcases required_six hf with rfl | rfl | rfl | rfl | rfl | rfl
    · rw [getStr_none_of_lookup_none hm] at h1; exact Option.noConfusion h1
    · rw [getStr_none_of_lookup_none hm] at h2; exact Option.noConfusion h2
    · rw [getStr_none_of_lookup_none hm] at h3; exact Option.noConfusion h3
    · rw [getStr_none_of_lookup_none hm] at h4; exact Option.noConfusion h4
    · rw [getStr_none_of_lookup_none hm] at h5; exact Option.noConfusion h5
    · rw [getTools_none_of_lookup_none hm] at h6; exact Option.noConfusion h6

theorem validateLead_error_of_missing {fs : List (String × JValue)} {f : String}
    (hf : f ∈ requiredLeadFields) (hm : fs.lookup f = none) :
    validateLead (.obj fs) = .error (fieldErrs fs) := by
  unfold validateLead
  rw [leadOfJ_none_of_missing hf hm]

theorem missing_mem_checkStr {f : String} {fs : List (String × JValue)}
    (hm : fs.lookup f = none) : ValError.missingField f ∈ checkStr f fs := by
  unfold checkStr
  rw [hm]
  exact List.mem_singleton_self _

theorem missing_mem_checkTools {fs : List (String × JValue)}
    (hm : fs.lookup "tools_used" = none) :
    ValError.missingField "tools_used" ∈ checkTools fs := by
  unfold checkTools
  rw [hm]
  exact List.mem_singleton_self _

theorem missing_mem_fieldErrs {fs : List (String × JValue)} {f : String}
    (hf : f ∈ requiredLeadFields) (hm : fs.lookup f = none) :
    ValError.missingField f ∈ fieldErrs fs := by
  unfold fieldErrs
  rcases required_six hf with rfl | rfl | rfl | rfl | rfl | rfl
  · exact List.mem_append_left _ (List.mem_append_left _ (List.mem_append_left _
      (List.mem_append_left _ (List.mem_append_left _ (missing_mem_checkStr hm)))))
  · exact List.mem_append_left _ (List.mem_append_left _ (List.mem_append_left _
      (List.mem_append_left _ (List.mem_append_right _ (missing_mem_checkStr hm)))))
  · exact List.mem_append_left _ (List.mem_append_left _ (List.mem_append_left _
      (List.mem_append_right _ (missing_mem_checkStr hm))))
  · exact List.mem_append_left _ (List.mem_append_left _
      (List.mem_append_right _ (missing_mem_checkStr hm)))
  · exact List.mem_append_left _ (List.mem_append_right _ (missing_mem_checkStr hm))
  · exact List.mem_append_right _ (missing_mem_checkTools hm)

theorem collectLeads_error_mem {elems : List JValue} {v : JValue} {es : List ValError}
    {x : ValError} (hv : v ∈ elems) (he : validateLead v = .error es) (hx : x ∈ es) :
    ∃ E, collectLeads elems = .error E ∧ x ∈ E := by
  induction elems with
  | nil => exact (List.not_mem_nil v hv).elim
  | cons a tl ih =>
    rcases List.mem_cons.mp hv with rfl | htl
    · cases htl2 : collectLeads tl with
      | ok ls => exact ⟨es, by rw [collectLeads, he, htl2], hx⟩
      | error es2 => exact ⟨es ++ es2, by rw [collectLeads, he, htl2], List.mem_append_left _ hx⟩
    · obtain ⟨E, hE, hxe⟩ := ih htl
      cases hva : validateLead a with
      | ok l => exact ⟨E, by rw [collectLeads, hva, hE], hxe⟩
      | error esa => exact ⟨esa ++ E, by rw [collectLeads, hva, hE], List.mem_append_right _ hxe⟩

theorem parseLeadList_error_of_missing {fsTop : List (String × JValue)}
    {elems : List JValue} {fs : List (String × JValue)} {f : String}
    (hl : fsTop.lookup "leads" = some (.arr elems))
    (he : JValue.obj fs ∈ elems)
    (hf : f ∈ requiredLeadFields)
    (hm : fs.lookup f = none) :
    ∃ E, parseLeadList (.obj fsTop) = .error E ∧ ValError.missingField f ∈ E := by
  obtain ⟨E, hE, hxe⟩ :=
    collectLeads_error_mem he (validateLead_error_of_missing hf hm)
      (missing_mem_fieldErrs hf hm)
  exact ⟨E, by simp only [parseLeadList, hl, hE], hxe⟩

theorem extractLeads_ok {elems : List JValue} {leads : List LeadResponse}
    (h : extractLeads elems = some leads) :
    collectLeads elems = .ok leads ∧ leads.length = elems.length ∧
    ∀ i, (elems.get? i).bind leadOfJ = leads.get? i := by
  induction elems generalizing leads with
  | nil =>
    have h0 : leads = [] := by
      have := h
      unfold extractLeads at this
      exact (Option.some.injEq _ _ ▸ this).symm
    subst h0
    refine ⟨rfl, rfl, ?_⟩
    intro i
    cases i <;> rfl
  | cons v vs ih =>
    unfold extractLeads at h
    cases hv : leadOfJ v with
    | none => rw [hv] at h; exact Option.noConfusion h
    | some l =>
      cases hvs : extractLeads vs with
      | none => rw [hv, hvs] at h; exact Option.noConfusion h
      | some ls =>
        rw [hv, hvs] at h
        have h0 : l :: ls = leads := by
          injection h
        subst h0
        obtain ⟨hc, hlen, hidx⟩ := ih hvs
        have hval : validateLead v = .ok l := by unfold validateLead; rw [hv]
        refine ⟨by rw [collectLeads, hval, hc], by simp [hlen], ?_⟩
        intro i
        cases i with
        | zero => simp [hv]
        | succ n => simpa using hidx n

/-! ### Claims -/

/-- C9: the merge operation is idempotent.  Merging a collection with itself
yields that collection deduplicated against itself (`merge [] A`), not a
doubled set; and re-merging the merged result with the same incoming rows
changes nothing, compared per dedup key (key-set and surviving field values:
for every key `k` the surviving rows with that key coincide). -/
theorem c9_merge_idempotent :
    (∀ A : List XlsxRow, merge A A = merge [] A) ∧
    (∀ (A B : List XlsxRow) (k : String),
      (merge (merge A B) B).filter (fun r => r.email == k) =
        (merge A B).filter (fun r => r.email == k)) := by
  constructor
  · intro A
    unfold merge
    rw [List.nil_append]
    exact keepLast_append_of_dup A A
      (fun x hx => List.any_eq_true.mpr ⟨x, hx, beq_self_eq_true _⟩)
  · intro A B k
    unfold merge
    rw [keepLast_filter k (keepLast (A ++ B) ++ B), keepLast_filter k (A ++ B),
      List.filter_append, keepLast_filter k (A ++ B), List.filter_append,
      List.getLast?_append, List.getLast?_append, option_toList_getLast]
    cases hb : (B.filter (fun r => r.email == k)).getLast? <;> simp [Option.or]

/-- C1 (counterexample): the claim asserts the dedup invariant for every run
that writes the spreadsheet sink, including a first run with no prior file and
duplicate incoming keys.  On such a run the code writes `df_new` without any
`drop_duplicates` call: with no prior file and two incoming leads sharing
email `a@x`, the written sheet holds two rows with the same email. -/
theorem c1_counterexample :
    (runPipeline dupPayload .absent constClock true true true).xlsxSink =
      some [⟨"Old", "", "a@x", "", "", "", "T"⟩, ⟨"New", "", "a@x", "", "", "", "T"⟩] ∧
    (((runPipeline dupPayload .absent constClock true true true).xlsxSink.getD []).filter
      (fun r => r.email == "a@x")).length = 2 := by
  exact ⟨rfl, rfl⟩

/-- C1 (amended): when a prior spreadsheet file exists and loads successfully,
the merged history holds at most one row per unique email and on a collision
the most-recently-written row survives (keep-last); the spec's concrete
example merges to exactly the `"New"` row.  When no prior file exists the sink
receives the incoming rows as-is, without deduplication, so duplicates inside
the incoming collection persist (rows written by this pipeline always carry
the `email` column, so dedup is keyed by email). -/
theorem c1_merge_dedup_keep_last :
    (∀ (ex inc : List XlsxRow) (k : String),
      (merge ex inc).filter (fun r => r.email == k) =
        (((ex ++ inc).filter (fun r => r.email == k)).getLast?).toList) ∧
    (∀ (ex inc : List XlsxRow) (k : String),
      ((merge ex inc).filter (fun r => r.email == k)).length ≤ 1) ∧
    merge [oldRow] [newRow] = [newRow] ∧
    newRow.company = "New" ∧
    (∀ (payload : JValue) (leads : LeadResponseList) (ex : List XlsxRow)
        (clock : Nat → String) (j c : Bool), parseLeadList payload = .ok leads →
      (runPipeline payload (.loaded ex) clock j c true).xlsxSink =
        some (merge ex (newXlsxRows leads.leads clock))) ∧
    (∀ (payload : JValue) (leads : LeadResponseList) (clock : Nat → String) (j c : Bool),
      parseLeadList payload = .ok leads →
      (runPipeline payload .absent clock j c true).xlsxSink =
        some (newXlsxRows leads.leads clock)) := by
  refine ⟨?_, ?_, by decide, by decide, ?_, ?_⟩
  · intro ex inc k
    exact keepLast_filter k (ex ++ inc)
  · intro ex inc k
    rw [show (merge ex inc).filter (fun r => r.email == k) =
      (((ex ++ inc).filter (fun r => r.email == k)).getLast?).toList from
        keepLast_filter k (ex ++ inc)]
    cases ((ex ++ inc).filter (fun r => r.email == k)).getLast? <;> simp
  · intro payload leads ex clock j c h
    simp [runPipeline, h, okResult, mergedFor]
  · intro payload leads clock j c h
    simp [runPipeline, h, okResult, mergedFor]

/-- C1 (witness): the amended pipeline clause applied to the concrete one-lead
payload with a loaded prior history. -/
theorem c1_witness :
    (runPipeline alfaPayload (.loaded [oldRow]) constClock true true true).xlsxSink =
      some (merge [oldRow] (newXlsxRows [alfaLead] constClock)) :=
  c1_merge_dedup_keep_last.2.2.2.2.1 alfaPayload ⟨[alfaLead]⟩ [oldRow] constClock true true rfl

/-- C10: rows whose `email` is the empty string all collide under the email
dedup key: for every existing/incoming pair, at most one empty-email row
survives the merge, and it is the last one in concatenation order; two
concrete empty-email rows merge to the later one alone. -/
theorem c10_empty_email_collides :
    (∀ ex inc : List XlsxRow,
      (merge ex inc).filter (fun r => r.email == "") =
        (((ex ++ inc).filter (fun r => r.email == "")).getLast?).toList) ∧
    (∀ ex inc : List XlsxRow,
      ((merge ex inc).filter (fun r => r.email == "")).length ≤ 1) ∧
    merge [emptyEmailRowA] [emptyEmailRowB] = [emptyEmailRowB] := by
  refine ⟨?_, ?_, by decide⟩
  · intro ex inc
    exact keepLast_filter "" (ex ++ inc)
  · intro ex inc
    rw [show (merge ex inc).filter (fun r => r.email == "") =
      (((ex ++ inc).filter (fun r => r.email == "")).getLast?).toList from
        keepLast_filter "" (ex ++ inc)]
    cases ((ex ++ inc).filter (fun r => r.email == "")).getLast? <;> simp

/-- C2: whenever any required `LeadRecord` field is absent on any element of
the `leads` array, validation fails and its error list names that field as
missing; the whole run aborts (the result is `failedResult`): no sink is
written, no sink block is even reached, and no status event is emitted. -/
theorem c2_missing_field_aborts
    (fsTop : List (String × JValue)) (elems : List JValue) (fs : List (String × JValue))
    (f : String) (prior : PriorXlsx) (clock : Nat → String) (j c x : Bool)
    (hl : fsTop.lookup "leads" = some (.arr elems))
    (he : JValue.obj fs ∈ elems)
    (hf : f ∈ requiredLeadFields)
    (hm : fs.lookup f = none) :
    parseLeadList (.obj fsTop) = .error (errsOf (parseLeadList (.obj fsTop))) ∧
    ValError.missingField f ∈ errsOf (parseLeadList (.obj fsTop)) ∧
    runPipeline (.obj fsTop) prior clock j c x =
      failedResult (errsOf (parseLeadList (.obj fsTop))) := by
  obtain ⟨E, hE, hxe⟩ := parseLeadList_error_of_missing hl he hf hm
  have hErr : errsOf (parseLeadList (.obj fsTop)) = E := by rw [hE]; rfl
  refine ⟨?_, ?_, ?_⟩
  · rw [hErr, hE]
  · rw [hErr]; exact hxe
  · rw [hErr]
    simp [runPipeline, hE]

/-- C2 (witness): a payload whose single lead only carries `company` fails
with `email` among its missing fields and produces the aborted run result. -/
theorem c2_witness :
    parseLeadList (.obj wPayloadFs) = .error (errsOf (parseLeadList (.obj wPayloadFs))) ∧
    ValError.missingField "email" ∈ errsOf (parseLeadList (.obj wPayloadFs)) ∧
    runPipeline (.obj wPayloadFs) .absent constClock true true true =
      failedResult (errsOf (parseLeadList (.obj wPayloadFs))) :=
  c2_missing_field_aborts wPayloadFs [.obj [("company", .str "A")]] [("company", .str "A")]
    "email" .absent constClock true true true rfl (List.mem_singleton_self _)
    (by decide) rfl

/-- C3: any payload whose `leads` key holds a sequence of fully-populated lead
objects validates to a collection of exactly the same length whose records
carry the payload's field values in the payload's order (the i-th record is
the extraction of the i-th element, for every index). -/
theorem c3_valid_payload_preserved
    (fsTop : List (String × JValue)) (elems : List JValue) (leads : List LeadResponse)
    (hl : fsTop.lookup "leads" = some (.arr elems))
    (hx : extractLeads elems = some leads) :
    parseLeadList (.obj fsTop) = .ok ⟨leads⟩ ∧
    leads.length = elems.length ∧
    ∀ i, (elems.get? i).bind leadOfJ = leads.get? i := by
  obtain ⟨hc, hlen, hidx⟩ := extractLeads_ok hx
  exact ⟨by simp only [parseLeadList, hl, hc], hlen, hidx⟩

/-- C3 (witness): the spec's end-to-end one-lead payload validates to exactly
that lead. -/
theorem c3_witness :
    parseLeadList alfaPayload = .ok ⟨[alfaLead]⟩ ∧
    ([alfaLead] : List LeadResponse).length = ([alfaLeadJ] : List JValue).length ∧
    ∀ i, (([alfaLeadJ] : List JValue).get? i).bind leadOfJ =
      ([alfaLead] : List LeadResponse).get? i :=
  c3_valid_payload_preserved [("leads", .arr [alfaLeadJ])] [alfaLeadJ] [alfaLead] rfl rfl

/-- C5: on a validated collection the three sink writers are all attempted in
isolation, each receiving the same collection, for every combination of
per-writer outcomes; the driver ends in `done` regardless, and each sink holds
its content exactly when its own write succeeded. -/
theorem c5_sinks_isolated
    (payload : JValue) (leads : LeadResponseList) (prior : PriorXlsx)
    (clock : Nat → String) (j c x : Bool)
    (h : parseLeadList payload = .ok leads) :
    (runPipeline payload prior clock j c x).state = .done ∧
    (runPipeline payload prior clock j c x).jsonAttempted = true ∧
    (runPipeline payload prior clock j c x).csvAttempted = true ∧
    (runPipeline payload prior clock j c x).xlsxAttempted = true ∧
    (runPipeline payload prior clock j c x).jsonSink =
      (if j then some leads.leads else none) ∧
    (runPipeline payload prior clock j c x).csvSink =
      (if c then some (csvContent leads.leads clock) else none) ∧
    (runPipeline payload prior clock j c x).xlsxSink =
      (if x then some (mergedFor prior (newXlsxRows leads.leads clock)) else none) := by
  simp [runPipeline, h, okResult]

/-- C5 (witness): a run whose CSV write fails still attempts all three sinks,
ends in `done`, and writes the other two sinks. -/
theorem c5_witness :
    (runPipeline alfaPayload .absent constClock true false true).state = .done ∧
    (runPipeline alfaPayload .absent constClock true false true).jsonAttempted = true ∧
    (runPipeline alfaPayload .absent constClock true false true).csvAttempted = true ∧
    (runPipeline alfaPayload .absent constClock true false true).xlsxAttempted = true ∧
    (runPipeline alfaPayload .absent constClock true false true).jsonSink =
      (if true then some (⟨[alfaLead]⟩ : LeadResponseList).leads else none) ∧
    (runPipeline alfaPayload .absent constClock true false true).csvSink =
      (if false then some (csvContent (⟨[alfaLead]⟩ : LeadResponseList).leads constClock)
       else none) ∧
    (runPipeline alfaPayload .absent constClock true false true).xlsxSink =
      (if true then
        some (mergedFor .absent (newXlsxRows (⟨[alfaLead]⟩ : LeadResponseList).leads constClock))
       else none) :=
  c5_sinks_isolated alfaPayload ⟨[alfaLead]⟩ .absent constClock true false true rfl

/-- C4 (counterexample): the claim asserts one shared `scraped_at` per run.
The code calls `datetime.now()` once per row, in each of the two loops: with a
clock whose consecutive calls differ, the two CSV rows of one run carry
distinct timestamps (`T0` versus `T1`), and the spreadsheet rows carry yet
other values (`T2`, `T3`). -/
theorem c4_counterexample :
    (runPipeline twoLeadPayload .absent stepClock true true true).csvSink =
      some [csvHeader,
            ["Alfa", "", "a@x", "", "", "", "T0"],
            ["Beta", "", "b@x", "", "", "", "T1"]] ∧
    (runPipeline twoLeadPayload .absent stepClock true true true).xlsxSink =
      some [⟨"Alfa", "", "a@x", "", "", "", "T2"⟩, ⟨"Beta", "", "b@x", "", "", "", "T3"⟩] ∧
    ("T0" : String) ≠ "T1" ∧ ("T1" : String) ≠ "T2" := by
  refine ⟨rfl, rfl, by decide, by decide⟩

/-- C4 (amended): each row's `scraped_at` comes from its own clock call, made
per row in write order (CSV rows first, then spreadsheet rows).  When every
clock call of the run returns the same value — a run completing within one
second — all CSV rows and all spreadsheet rows produced by the run carry that
single timestamp. -/
theorem c4_shared_timestamp_with_constant_clock
    (payload : JValue) (leads : LeadResponseList) (clock : Nat → String) (t : String)
    (j : Bool) (h : parseLeadList payload = .ok leads) (hc : ∀ n, clock n = t) :
    (runPipeline payload .absent clock j true true).csvSink =
      some (csvContent leads.leads clock) ∧
    (∀ row ∈ (csvContent leads.leads clock).drop 1, row.getLast? = some t) ∧
    (runPipeline payload .absent clock j true true).xlsxSink =
      some (newXlsxRows leads.leads clock) ∧
    (∀ r ∈ newXlsxRows leads.leads clock, r.scraped_at = t) := by
  refine ⟨by simp [runPipeline, h, okResult], ?_,
    by simp [runPipeline, h, okResult, mergedFor], ?_⟩
  · intro row hrow
    rw [csvContent, List.drop_succ_cons, List.drop_zero] at hrow
    obtain ⟨p, hp, hrw⟩ := List.mem_map.mp hrow
    rw [← hrw]
    show some (clock p.1) = some t
    rw [hc]
  · intro r hr
    obtain ⟨p, hp, hrw⟩ := List.mem_map.mp hr
    rw [← hrw]
    show clock (leads.leads.length + p.1) = t
    exact hc _

/-- C4 (witness): with the constant clock, the one-lead run's rows all carry
timestamp `"T"`. -/
theorem c4_witness :
    (runPipeline alfaPayload .absent constClock true true true).csvSink =
      some (csvContent (⟨[alfaLead]⟩ : LeadResponseList).leads constClock) ∧
    (∀ row ∈ (csvContent (⟨[alfaLead]⟩ : LeadResponseList).leads constClock).drop 1,
      row.getLast? = some "T") ∧
    (runPipeline alfaPayload .absent constClock true true true).xlsxSink =
      some (newXlsxRows (⟨[alfaLead]⟩ : LeadResponseList).leads constClock) ∧
    (∀ r ∈ newXlsxRows (⟨[alfaLead]⟩ : LeadResponseList).leads constClock,
      r.scraped_at = "T") :=
  c4_shared_timestamp_with_constant_clock alfaPayload ⟨[alfaLead]⟩ constClock "T" true rfl
    (fun _ => rfl)

/-- C8 (counterexample): the claim asserts the spreadsheet load failure is
recorded.  The inner `except` branch only assigns `df_out = df_new` — it
neither logs nor stores anything — so the run with a failing prior load is
observably identical, event trace included, to a run whose prior file loaded
as an empty history; its events are just the three success messages. -/
theorem c8_counterexample :
    runPipeline alfaPayload .loadFails stepClock true true true =
      runPipeline alfaPayload (.loaded []) stepClock true true true ∧
    (runPipeline alfaPayload .loadFails stepClock true true true).events =
      [RunEvent.jsonSaved, RunEvent.csvSaved, RunEvent.excelSaved] := by
  exact ⟨rfl, rfl⟩

/-- C8 (amended): when the prior spreadsheet file exists but fails to load,
the run still completes, the spreadsheet sink is overwritten with only the
current run's rows, and the other sinks are unaffected; the failure is
swallowed silently — the run result is the one of a run with no prior file. -/
theorem c8_load_failure_degrades
    (payload : JValue) (leads : LeadResponseList) (clock : Nat → String) (j c x : Bool)
    (h : parseLeadList payload = .ok leads) :
    (runPipeline payload .loadFails clock j c true).state = .done ∧
    (runPipeline payload .loadFails clock j c true).xlsxSink =
      some (newXlsxRows leads.leads clock) ∧
    (runPipeline payload .loadFails clock j c true).jsonSink =
      (if j then some leads.leads else none) ∧
    (runPipeline payload .loadFails clock j c true).csvSink =
      (if c then some (csvContent leads.leads clock) else none) ∧
    runPipeline payload .loadFails clock j c x = runPipeline payload .absent clock j c x := by
  refine ⟨?_, ?_, ?_, ?_, ?_⟩ <;> simp [runPipeline, h, okResult, mergedFor]

/-- C8 (witness): the amended statement at the concrete one-lead payload. -/
theorem c8_witness :
    (runPipeline alfaPayload .loadFails stepClock true true true).state = .done ∧
    (runPipeline alfaPayload .loadFails stepClock true true true).xlsxSink =
      some (newXlsxRows (⟨[alfaLead]⟩ : LeadResponseList).leads stepClock) ∧
    (runPipeline alfaPayload .loadFails stepClock true true true).jsonSink =
      (if true then some (⟨[alfaLead]⟩ : LeadResponseList).leads else none) ∧
    (runPipeline alfaPayload .loadFails stepClock true true true).csvSink =
      (if true then some (csvContent (⟨[alfaLead]⟩ : LeadResponseList).leads stepClock)
       else none) ∧
    runPipeline alfaPayload .loadFails stepClock true true true =
      runPipeline alfaPayload .absent stepClock true true true :=
  c8_load_failure_degrades alfaPayload ⟨[alfaLead]⟩ stepClock true true true rfl

/-- On a fenced input the unwrapper returns stripped text: both branches of
the fence case end in a `strip`.  (On an unfenced input it returns the raw
text, which need not be stripped.) -/
theorem strip_unwrap_of_fence (s : List Char) (hf : (strip s).take 3 = fenceMarker) :
    strip (unwrap s) = unwrap s := by
  simp only [unwrap]
  rw [if_pos hf]
  split_ifs with h2
  · exact pyStrip_idem isPyWS _
  · exact pyStrip_idem isPyWS _

/-- C6 (counterexample): the claim states that when no fence marker is
present the trimmed text is returned.  In the code the reassignment of
`output_text` sits inside the fence branch, so an unfenced input is passed on
raw: the input consisting of `salom` surrounded by spaces is returned with
its spaces, not trimmed. -/
theorem c6_counterexample :
    unwrap ("  salom  ".toList) = "  salom  ".toList ∧
    strip ("  salom  ".toList) = "salom".toList ∧
    ¬(unwrap ("  salom  ".toList) = strip ("  salom  ".toList)) := by
  exact ⟨rfl, rfl, by decide⟩

/-- C6 (amended): the unwrapper's contract.  (1) When the trimmed text does
not begin with the fence marker, the raw text is returned unchanged —
untrimmed (trimming enters only the fence test, not the returned value).
(2) A fenced payload with the `json` language tag unwraps to the trimmed body
(for any body not itself ending in a backtick).  (3) A tagless fenced payload
unwraps to the trimmed body (for any non-empty body not starting or ending in
a backtick and not starting with a `json` tag of its own).  (4) The spec's
concrete fenced example unwraps to exactly its JSON body, and (5) the tag
match is case-insensitive (`JSON` works too).  `unwrap` is a total function,
so unwrapping never raises. -/
theorem c6_unwrap_fence_stripping :
    (∀ s : List Char, ¬((strip s).take 3 = fenceMarker) → unwrap s = s) ∧
    (∀ body : List Char,
      (∀ ch, body.getLast? = some ch → (ch == tick) = false) →
      unwrap ((fenceMarker ++ jsonTag) ++ (body ++ fenceMarker)) = strip body) ∧
    (∀ body : List Char, body ≠ [] →
      (∀ ch, body.head? = some ch → (ch == tick) = false) →
      (∀ ch, body.getLast? = some ch → (ch == tick) = false) →
      ¬(((strip body).take 4).map Char.toLower = jsonTag) →
      unwrap (fenceMarker ++ (body ++ fenceMarker)) = strip body) ∧
    unwrap ("```json\n\x7b\"leads\":[]\x7d\n```".toList) = "\x7b\"leads\":[]\x7d".toList ∧
    unwrap ("```JSON\n\x7b\"leads\":[]\x7d\n```".toList) = "\x7b\"leads\":[]\x7d".toList := by
  refine ⟨?_, ?_, ?_, by decide, by decide⟩
  · intro s h
    simp only [unwrap]
    rw [if_neg h]
  · intro body hb
    by_cases hbody : body = []
    · subst hbody; decide
    · have hstrip : strip ((fenceMarker ++ jsonTag) ++ (body ++ fenceMarker)) =
          (fenceMarker ++ jsonTag) ++ (body ++ fenceMarker) := by
        apply strip_of_ends
        · intro ch h
          have h' : some tick = some ch := h
          injection h' with h2
          rw [← h2]; decide
        · intro ch h
          rw [List.getLast?_append, List.getLast?_append] at h
          have h' : some tick = some ch := h
          injection h' with h2
          rw [← h2]; decide
      have htake : ((fenceMarker ++ jsonTag) ++ (body ++ fenceMarker)).take 3 =
          fenceMarker := rfl
      have hlst : List.dropWhile (fun c => c == tick)
          ((fenceMarker ++ jsonTag) ++ (body ++ fenceMarker)) =
          jsonTag ++ (body ++ fenceMarker) := rfl
      have hrsb : rstrip (fun c => c == tick) body = body :=
        rstrip_eq_self_of_getLast _ _ hb
      have h1 : rstrip (fun c => c == tick) (body ++ fenceMarker) =
          rstrip (fun c => c == tick) body := by
        rw [rstrip_append,
          if_pos (show rstrip (fun c => c == tick) fenceMarker = [] from rfl)]
      have hrstick : rstrip (fun c => c == tick) (jsonTag ++ (body ++ fenceMarker)) =
          jsonTag ++ body := by
        rw [rstrip_append, h1, hrsb, if_neg hbody]
      have hstripTicks : stripTicks ((fenceMarker ++ jsonTag) ++ (body ++ fenceMarker)) =
          jsonTag ++ body := by
        unfold stripTicks pyStrip
        rw [hlst, hrstick]
      have hcleanedR : rstrip isPyWS (jsonTag ++ body) =
          jsonTag ++ rstrip isPyWS body := by
        rw [rstrip_append]
        by_cases hrb : rstrip isPyWS body = []
        · rw [if_pos hrb, hrb, List.append_nil]
          rfl
        · rw [if_neg hrb]
      have hclean : strip (jsonTag ++ body) = jsonTag ++ rstrip isPyWS body := by
        unfold strip pyStrip
        rw [show List.dropWhile isPyWS (jsonTag ++ body) = jsonTag ++ body from rfl,
          hcleanedR]
      have htag : ((jsonTag ++ rstrip isPyWS body).take 4).map Char.toLower = jsonTag := by
        rw [show (4 : Nat) = jsonTag.length from rfl, List.take_left]
        rfl
      have hdrop : (jsonTag ++ rstrip isPyWS body).drop 4 = rstrip isPyWS body := by
        rw [show (4 : Nat) = jsonTag.length from rfl, List.drop_left]
      simp only [unwrap]
      rw [hstrip, if_pos htake, hstripTicks, hclean, if_pos htag, hdrop]
      exact pyStrip_rstrip isPyWS body
  · intro body hbody hhead hlast htag
    obtain ⟨b, bt, rfl⟩ : ∃ b bt, body = b :: bt := by
      cases body with
      | nil => exact absurd rfl hbody
      | cons b bt => exact ⟨b, bt, rfl⟩
    have hpb : (b == tick) = false := hhead b rfl
    have hstrip : strip (fenceMarker ++ ((b :: bt) ++ fenceMarker)) =
        fenceMarker ++ ((b :: bt) ++ fenceMarker) := by
      apply strip_of_ends
      · intro ch h
        have h' : some tick = some ch := h
        injection h' with h2
        rw [← h2]; decide
      · intro ch h
        rw [List.getLast?_append, List.getLast?_append] at h
        have h' : some tick = some ch := h
        injection h' with h2
        rw [← h2]; decide
    have htake : (fenceMarker ++ ((b :: bt) ++ fenceMarker)).take 3 = fenceMarker := rfl
    have hlst : List.dropWhile (fun c => c == tick)
        (fenceMarker ++ ((b :: bt) ++ fenceMarker)) = (b :: bt) ++ fenceMarker := by
      show List.dropWhile (fun c => c == tick)
        (tick :: tick :: tick :: ((b :: bt) ++ fenceMarker)) = (b :: bt) ++ fenceMarker
      simp [List.cons_append, List.dropWhile_cons, hpb]
    have hrs1 : rstrip (fun c => c == tick) ((b :: bt) ++ fenceMarker) = b :: bt := by
      rw [rstrip_append,
        if_pos (show rstrip (fun c => c == tick) fenceMarker = [] from rfl)]
      exact rstrip_eq_self_of_getLast _ _ hlast
    have hstripTicks : stripTicks (fenceMarker ++ ((b :: bt) ++ fenceMarker)) = b :: bt := by
      unfold stripTicks pyStrip
      rw [hlst, hrs1]
    simp only [unwrap]
    rw [hstrip, if_pos htake, hstripTicks, if_neg htag]

/-- C6 (witness): the no-fence clause at `"salom "` (returned raw), the
tagged-fence clause at body `" x "`, and the tagless-fence clause at body
`"xy"`. -/
theorem c6_witness :
    (¬((strip ("salom ".toList)).take 3 = fenceMarker) ∧
      unwrap ("salom ".toList) = "salom ".toList) ∧
    unwrap ((fenceMarker ++ jsonTag) ++ (" x ".toList ++ fenceMarker)) =
      strip (" x ".toList) ∧
    unwrap (fenceMarker ++ ("xy".toList ++ fenceMarker)) = strip ("xy".toList) :=
  ⟨⟨by decide, c6_unwrap_fence_stripping.1 _ (by decide)⟩,
   c6_unwrap_fence_stripping.2.1 " x ".toList
     (by intro ch h; injection h with h2; rw [← h2]; decide),
   c6_unwrap_fence_stripping.2.2.1 "xy".toList (by decide)
     (by intro ch h; injection h with h2; rw [← h2]; decide)
     (by intro ch h; injection h with h2; rw [← h2]; decide)
     (by decide)⟩

/-- C7 (counterexample): the unwrapper is not idempotent.  The raw text
consisting of a fence, a space, another fence and `hello` unwraps to a text
that still begins with a fence, and a second unwrap changes it again. -/
theorem c7_counterexample :
    unwrap ("``` ``` hello".toList) = "``` hello".toList ∧
    unwrap (unwrap ("``` ``` hello".toList)) = "hello".toList ∧
    ¬(unwrap (unwrap ("``` ``` hello".toList)) = unwrap ("``` ``` hello".toList)) := by
  exact ⟨rfl, rfl, by decide⟩

/-- C7 (amended): the unwrapper is idempotent on every input whose unwrapped
result does not itself begin with the fence marker — in particular on every
already-unwrapped payload.  On an unfenced input the unwrapper is the
identity, so a second pass changes nothing; on a fenced input the output is
trimmed, so when it is also fence-free the second pass returns it unchanged. -/
theorem c7_idempotent_on_unfenced (s : List Char)
    (h : ¬((unwrap s).take 3 = fenceMarker)) :
    unwrap (unwrap s) = unwrap s := by
  by_cases hf : (strip s).take 3 = fenceMarker
  · have hs : strip (unwrap s) = unwrap s := strip_unwrap_of_fence s hf
    generalize hu : unwrap s = u at h hs ⊢
    simp only [unwrap]
    rw [hs, if_neg h]
  · have hu : unwrap s = s := by
      simp only [unwrap]
      rw [if_neg hf]
    rw [hu]
    exact hu

/-- C7 (witness): the amended idempotence applied to the plain text `"salom"`. -/
theorem c7_witness :
    ¬((unwrap ("salom".toList)).take 3 = fenceMarker) ∧
    unwrap (unwrap ("salom".toList)) = unwrap ("salom".toList) :=
  ⟨by decide, c7_idempotent_on_unfenced _ (by decide)⟩

end LeadAgent
